import Mathlib

/-!
# Verification of dev-disp core behaviors

Shallow embedding of the dev-disp repository's session controller
(`libs/dev-disp-core/src/core/controller.rs`), device registry
(`apps/dev-disp-server/src/app/app.rs`), WebSocket transport
(`libs/dev-disp-comm/src/websocket/transport.rs`) and ffmpeg encoder
negotiation (`libs/dev-disp-encoders/src/ffmpeg/{configurations,ffmpeg_encoder}.rs`),
together with theorems checking the natural-language specification
against those definitions.
-/

namespace DevDisp

/-! ## Session controller: `screen_loop` (controller.rs lines 142-250)

The streaming loop is driven by what the capture surface and the transport
return on each iteration.  One `Ev` value records the observable outcome of
one loop iteration: which `ScreenReadyStatus` the `get_ready` poll produced,
whether `get_bytes`/`encode`/`send_screen_data` succeeded, and — for send
events — the wall-clock instant (in milliseconds) at which the failure
branch would call `Instant::now()` / `start.elapsed()`.
-/

/-- One observable iteration of `screen_loop`:

* `finished`       — `get_ready` returned `Ok(Finished)`;
* `notReady stop`  — `get_ready` returned `Ok(NotReady)`; `stop` is the value
  of the shared stop flag observed after the 100ms sleep;
* `readyNoBytes`   — `Ok(Ready)` but `screen.get_bytes()` returned `None`;
* `readyEncodeFail`— `Ok(Ready)`, bytes present, `encoder.encode` failed;
* `readySendOk t`  — `Ok(Ready)`, encode succeeded, `send_screen_data`
  succeeded (`t` is the current time, unused by the code on success);
* `readySendFail t`— `Ok(Ready)`, encode succeeded, `send_screen_data`
  failed; `t` is the current time in ms at the failure branch;
* `screenErr`      — `get_ready` returned `Err(_)`. -/
inductive Ev : Type
  | finished : Ev
  | notReady (stop : Bool) : Ev
  | readyNoBytes : Ev
  | readyEncodeFail : Ev
  | readySendOk (t : Nat) : Ev
  | readySendFail (t : Nat) : Ev
  | screenErr : Ev
  deriving DecidableEq, Repr

/-- Mutable state of `screen_loop`:
`bad_transmission_start: Option<Instant>`, `bad_transmission_count: u32`,
and `err: Option<String>`. -/
structure LoopSt : Type where
  badStart : Option Nat
  badCount : Nat
  err : Option String
  deriving DecidableEq, Repr

/-- Initial state of `screen_loop`: no failure streak, no error recorded. -/
def LoopSt.init : LoopSt := ⟨none, 0, none⟩

/-- `err` message set when `encoder.encode` fails (controller.rs line 181). -/
def encodeFailMsg : String := "Failed to encode screen data"

/-- `err` message set when the bad-transmission threshold is hit
(controller.rs line 209). -/
def tooManyBadMsg : String := "Too many bad transmissions to display host"

/-- `err` message set when `screen.get_ready` returns an error
(controller.rs line 232). -/
def screenErrMsg : String := "Virtual screen runtime error"

/-- Result of one iteration of the loop body: either continue with an
updated state, or break out of the loop with a final state. -/
inductive StepRes : Type
  | cont (s : LoopSt) : StepRes
  | brk (s : LoopSt) : StepRes
  deriving DecidableEq, Repr

/-- One iteration of the `loop` body of `screen_loop`
(controller.rs lines 158-235), transcribed arm by arm:

* `Finished` sets the stop flag and breaks;
* `NotReady` sleeps, then breaks iff the stop flag is set;
* `Ready` with no bytes logs and continues;
* encode failure records `err` and breaks;
* send failure computes `bad_transmission_elapsed` from
  `bad_transmission_start` (recording `Instant::now()` when the streak is
  empty, in which case the elapsed value used is `Duration::ZERO`),
  increments `bad_transmission_count`, and breaks with `err` set when
  `elapsed >= 5s && count >= 5`;
* send success clears `bad_transmission_start` and `bad_transmission_count`;
* a `get_ready` error records `err` and (as written) falls through to the
  next iteration of the loop. -/
def loopStep (s : LoopSt) : Ev → StepRes
  | .finished => .brk s
  | .notReady stop => if stop then .brk s else .cont s
  | .readyNoBytes => .cont s
  | .readyEncodeFail => .brk { s with err := some encodeFailMsg }
  | .readySendOk _ => .cont { s with badStart := none, badCount := 0 }
  | .readySendFail t =>
      let elapsed : Nat :=
        match s.badStart with
        | some start => t - start
        | none => 0
      let badStart : Option Nat :=
        match s.badStart with
        | some start => some start
        | none => some t
      let badCount : Nat := s.badCount + 1
      if 5000 ≤ elapsed ∧ 5 ≤ badCount then
        .brk { badStart := badStart, badCount := badCount,
               err := some tooManyBadMsg }
      else
        .cont { badStart := badStart, badCount := badCount, err := s.err }
  | .screenErr => .cont { s with err := some screenErrMsg }

/-- Run `screen_loop` over a finite list of iteration events.

`some r` means the loop broke out and, after closing the transport and the
screen, returned `Err(_, msg)` when `r = some msg` and `Ok(_)` when
`r = none` (controller.rs lines 237-249).  `none` means the event list was
exhausted with the loop still running. -/
def screenLoop : LoopSt → List Ev → Option (Option String)
  | _, [] => none
  | s, e :: es =>
      match loopStep s e with
      | .brk s' => some s'.err
      | .cont s' => screenLoop s' es

/-! ### Specification-side description of the failure streak

The spec speaks of "the current uninterrupted failure streak": the send
failures that occurred since the last successful send.  `streakStep`
computes, from the list of timestamps of the failures of the current
streak, the streak after one more loop iteration: a successful send empties
it, a failed send appends its timestamp, and every other iteration leaves
it untouched. -/

/-- How one loop iteration transforms the list of timestamps of the send
failures in the current uninterrupted failure streak. -/
def streakStep (L : List Nat) : Ev → List Nat
  | .readySendOk _ => []
  | .readySendFail t => L ++ [t]
  | _ => L

/-- Timestamps of the current failure streak after consuming the events
`es`, starting from streak `L`. -/
def streakAfter (L : List Nat) (es : List Ev) : List Nat :=
  es.foldl streakStep L

/-- The streak of send failures since the last successful send, over the
events consumed so far. -/
def currentStreak (pre : List Ev) : List Nat := streakAfter [] pre

/-- Time elapsed at instant `t` since the first send failure of the streak
`L` (zero when this failure is itself the first of its streak, matching
`Duration::ZERO` in the source). -/
def streakElapsed (L : List Nat) (t : Nat) : Nat :=
  match L.head? with
  | some t0 => t - t0
  | none => 0

/-- A send failure at instant `t`, arriving when the current streak is `L`,
satisfies the termination threshold: at least 5 seconds (5000 ms) have
elapsed since the first failure of the streak and the streak — including
this failure — has accumulated at least 5 failures. -/
def fatalSendFailure (L : List Nat) (t : Nat) : Prop :=
  5000 ≤ streakElapsed L t ∧ 5 ≤ L.length + 1

/-- The loop-iteration outcomes that make `screen_loop` break out of its
loop, given the current streak `L`: a `Finished` poll, a `NotReady` poll
with the stop flag set, an encode failure, or a send failure meeting the
bad-transmission threshold. -/
def breaksLoop (L : List Nat) : Ev → Prop
  | .finished => True
  | .notReady stop => stop = true
  | .readyEncodeFail => True
  | .readySendFail t => fatalSendFailure L t
  | _ => False

/-- Event `k` of `es` is (when the loop starts with streak `L`) a send
failure meeting the bad-transmission threshold, and no earlier event breaks
the loop: the loop reaches event `k` and terminates there for this reason. -/
def fatalAt (L : List Nat) (es : List Ev) (k : Nat) (t : Nat) : Prop :=
  es.get? k = some (.readySendFail t) ∧
  fatalSendFailure (streakAfter L (es.take k)) t ∧
  ∀ j, j < k → ∀ e, es.get? j = some e → ¬ breaksLoop (streakAfter L (es.take j)) e

theorem streakAfter_cons (L : List Nat) (e : Ev) (es : List Ev) :
    streakAfter L (e :: es) = streakAfter (streakStep L e) es := rfl

theorem streakAfter_nil (L : List Nat) : streakAfter L [] = L := rfl

/-- Shifting a `fatalAt` witness across a non-breaking head event. -/
theorem fatalAt_shift {L : List Nat} {e : Ev} (he : ¬ breaksLoop L e)
    (es : List Ev) :
    (∃ k t, fatalAt L (e :: es) k t) ↔ (∃ k t, fatalAt (streakStep L e) es k t) := by
  constructor
  · rintro ⟨k, t, hget, hfat, hpre⟩
    cases k with
    | zero =>
        simp only [List.get?_cons_zero, Option.some.injEq] at hget
        rw [hget] at he
        rw [List.take_zero, streakAfter_nil] at hfat
        exact absurd hfat he
    | succ k' =>
        refine ⟨k', t, ?_, ?_, ?_⟩
        · simpa using hget
        · rw [List.take_succ_cons, streakAfter_cons] at hfat
          exact hfat
        · intro j hj e' hg
          have := hpre (j + 1) (Nat.succ_lt_succ hj) e' (by simpa using hg)
          rwa [List.take_succ_cons, streakAfter_cons] at this
  · rintro ⟨k, t, hget, hfat, hpre⟩
    refine ⟨k + 1, t, by simpa using hget, ?_, ?_⟩
    · rw [List.take_succ_cons, streakAfter_cons]
      exact hfat
    · intro j hj e' hg
      cases j with
      | zero =>
          simp only [List.get?_cons_zero, Option.some.injEq] at hg
          rw [List.take_zero, streakAfter_nil, ← hg]
          exact he
      | succ j' =>
          have := hpre j' (Nat.lt_of_succ_lt_succ hj) e' (by simpa using hg)
          rwa [List.take_succ_cons, streakAfter_cons]

/-- If the head event breaks the loop but is not a send failure, no
`fatalAt` witness exists for the whole list. -/
theorem fatalAt_head_brk {L : List Nat} {e : Ev} (he : breaksLoop L e)
    (hne : ∀ t, e ≠ .readySendFail t) (es : List Ev) :
    ¬ ∃ k t, fatalAt L (e :: es) k t := by
  rintro ⟨k, t, hget, _, hpre⟩
  cases k with
  | zero =>
      simp only [List.get?_cons_zero, Option.some.injEq] at hget
      exact hne t hget
  | succ k' =>
      have := hpre 0 (Nat.succ_pos k') e (by simp)
      rw [List.take_zero, streakAfter_nil] at this
      exact this he

/-- Generalized form of the bad-transmission termination theorem: the loop
state is determined by the current streak `L` and the recorded error
`err0`. -/
theorem screenLoop_tooMany_aux (es : List Ev) :
    ∀ (L : List Nat) (err0 : Option String), err0 ≠ some tooManyBadMsg →
      (screenLoop ⟨L.head?, L.length, err0⟩ es = some (some tooManyBadMsg) ↔
        ∃ k t, fatalAt L es k t) := by
  induction es with
  | nil =>
      intro L err0 _
      simp [screenLoop, fatalAt]
  | cons e es ih =>
      intro L err0 h
      cases e with
      | finished =>
          constructor
          · intro heq
            have : err0 = some tooManyBadMsg := Option.some.inj heq
            exact absurd this h
          · intro hex
            exact absurd hex
              (fatalAt_head_brk (show breaksLoop L .finished from trivial)
                (fun t ht => Ev.noConfusion ht) es)
      | notReady stop =>
          cases stop with
          | true =>
              constructor
              · intro heq
                have : err0 = some tooManyBadMsg := Option.some.inj heq
                exact absurd this h
              · intro hex
                exact absurd hex
                  (fatalAt_head_brk (show breaksLoop L (.notReady true) from rfl)
                    (fun t ht => Ev.noConfusion ht) es)
          | false =>
              have hnb : ¬ breaksLoop L (.notReady false) := by
                intro hf
                exact Bool.noConfusion hf
              rw [fatalAt_shift hnb es]
              exact ih L err0 h
      | readyNoBytes =>
          have hnb : ¬ breaksLoop L .readyNoBytes := fun hf => hf
          rw [fatalAt_shift hnb es]
          exact ih L err0 h
      | readyEncodeFail =>
          constructor
          · intro heq
            have : encodeFailMsg = tooManyBadMsg :=
              Option.some.inj (Option.some.inj heq)
            exact absurd this (by decide)
          · intro hex
            exact absurd hex
              (fatalAt_head_brk (show breaksLoop L .readyEncodeFail from trivial)
                (fun t ht => Ev.noConfusion ht) es)
      | readySendOk t =>
          have hnb : ¬ breaksLoop L (.readySendOk t) := fun hf => hf
          rw [fatalAt_shift hnb es]
          exact ih [] err0 h
      | readySendFail t =>
          cases L with
          | nil =>
              have hnf : ¬ fatalSendFailure [] t := by
                intro hf
                have h1 := hf.1
                simp [streakElapsed] at h1
              have hnb : ¬ breaksLoop [] (.readySendFail t) := hnf
              rw [fatalAt_shift hnb es]
              have hcond : ¬ (5000 ≤ (0 : Nat) ∧ 5 ≤ 0 + 1) := by decide
              have hlhs : screenLoop ⟨([] : List Nat).head?, ([] : List Nat).length, err0⟩
                  (Ev.readySendFail t :: es)
                  = screenLoop ⟨some t, 1, err0⟩ es := by
                simp only [screenLoop, loopStep, List.head?_nil, List.length_nil, if_neg hcond]
              rw [hlhs]
              exact ih [t] err0 h
          | cons a L' =>
              by_cases hf : fatalSendFailure (a :: L') t
              · have hcond : 5000 ≤ t - a ∧ 5 ≤ (a :: L').length + 1 := hf
                have hlhs : screenLoop ⟨(a :: L').head?, (a :: L').length, err0⟩
                    (Ev.readySendFail t :: es) = some (some tooManyBadMsg) := by
                  simp only [screenLoop, loopStep, List.head?_cons, if_pos hcond]
                rw [hlhs]
                refine iff_of_true rfl ⟨0, t, rfl, ?_, fun j hj => absurd hj (Nat.not_lt_zero j)⟩
                rw [List.take_zero, streakAfter_nil]
                exact hf
              · have hcond : ¬ (5000 ≤ t - a ∧ 5 ≤ (a :: L').length + 1) := hf
                have hnb : ¬ breaksLoop (a :: L') (.readySendFail t) := hf
                rw [fatalAt_shift hnb es]
                have hstep : streakStep (a :: L') (.readySendFail t) = a :: (L' ++ [t]) := rfl
                rw [hstep]
                have hlhs : screenLoop ⟨(a :: L').head?, (a :: L').length, err0⟩
                    (Ev.readySendFail t :: es)
                    = screenLoop ⟨some a, (a :: L').length + 1, err0⟩ es := by
                  simp only [screenLoop, loopStep, List.head?_cons, if_neg hcond]
                rw [hlhs]
                have hlen : (a :: (L' ++ [t])).length = (a :: L').length + 1 := by
                  simp
                have := ih (a :: (L' ++ [t])) err0 h
                rw [show (a :: (L' ++ [t])).head? = some a from rfl, hlen] at this
                exact this
      | screenErr =>
          have hnb : ¬ breaksLoop L .screenErr := fun hf => hf
          rw [fatalAt_shift hnb es]
          have hne : (some screenErrMsg : Option String) ≠ some tooManyBadMsg := by
            decide
          exact ih L (some screenErrMsg) hne

/-- **C1**: for every run of the streaming loop, the session is terminated
with the bad-transmission failure exactly when some send failure arrives at
which at least 5 seconds have elapsed since the first send failure of the
current uninterrupted streak and the streak (including this failure) has
accumulated at least 5 failures, while no earlier iteration broke the loop
— so the loop never ends for this reason while either condition is unmet,
and it ends at the first send failure at which both hold. -/
theorem screenLoop_badTransmission_iff (es : List Ev) :
    screenLoop LoopSt.init es = some (some tooManyBadMsg) ↔
      ∃ k t, fatalAt [] es k t :=
  screenLoop_tooMany_aux es [] none (fun hh => Option.noConfusion hh)

/-- Sanity check: five send failures whose first and last are 5000 ms apart
terminate the session with the bad-transmission failure. -/
theorem screenLoop_badTransmission_fires :
    screenLoop LoopSt.init
      [.readySendFail 0, .readySendFail 100, .readySendFail 200,
       .readySendFail 300, .readySendFail 5000]
      = some (some tooManyBadMsg) := by decide

/-- Sanity check: five rapid send failures (streak shorter than 5 s) and a
long two-failure streak (fewer than 5 failures) keep the loop running. -/
theorem screenLoop_badTransmission_not_early :
    screenLoop LoopSt.init
      [.readySendFail 0, .readySendFail 1, .readySendFail 2,
       .readySendFail 3, .readySendFail 4, .readySendFail 5] = none ∧
    screenLoop LoopSt.init
      [.readySendFail 0, .readySendFail 9000] = none := by decide

/-- **C2**: the claim says a `get_ready` error makes the controller close
transport and capture and return a failure at once; in the code the
`Err(_)` arm of the poll only records `err` and the loop keeps polling:
after a capture-surface error the loop is still running (first two
conjuncts), and the recorded error is only returned once a *later* event
breaks the loop (third conjunct). -/
theorem screenErr_loop_keeps_polling :
    screenLoop LoopSt.init [.screenErr] = none ∧
    screenLoop LoopSt.init [.screenErr, .notReady false, .readyNoBytes] = none ∧
    screenLoop LoopSt.init [.screenErr, .finished] = some (some screenErrMsg) :=
  ⟨rfl, rfl, rfl⟩

/-- **C9**: a successful `send_screen_data` resets the transmission-failure
streak to empty — the failure count returns to zero and the first-failure
timestamp is cleared — and a send failure arriving after a success starts a
fresh window measured from that failure (streak of length 1, window start
at its own timestamp, no break possible at that iteration). -/
theorem sendSuccess_resets_failure_streak (s : LoopSt) (t t' : Nat) (pre : List Ev) :
    loopStep s (.readySendOk t) = .cont { s with badStart := none, badCount := 0 } ∧
    currentStreak (pre ++ [.readySendOk t]) = [] ∧
    loopStep { s with badStart := none, badCount := 0 } (.readySendFail t') =
      .cont { badStart := some t', badCount := 1, err := s.err } := by
  refine ⟨rfl, ?_, rfl⟩
  simp [currentStreak, streakAfter, List.foldl_append, streakStep]

/-! ## Device registry (`apps/dev-disp-server/src/app/app.rs`)

The `App` keeps `available_devices` and `in_use_devices`, both
`HashMap<DiscoveryId, HashMap<DisplayHostId, _>>` behind `RwLock`s.  We
model each as a function from discovery id to the list of device ids
present in that discovery's inner map (a `HashMap` keyed by `device_id`, so
insertion is deduplicating).  Each write-lock-protected mutation in the
source is one atomic step of the model. -/

/-- Remove a device id from an inner device map (`devices_map.remove(&info.id)`). -/
def removeDev (l : List String) (id : String) : List String :=
  l.filter (fun x => x != id)

/-- Insert a device id into an inner device map (`HashMap::insert`, keyed by
device id, so a present id is replaced rather than duplicated). -/
def insertDev (l : List String) (id : String) : List String :=
  id :: l.filter (fun x => x != id)

/-- The registry: available and in-use device ids per discovery id. -/
structure Registry : Type where
  available : String → List String
  in_use : String → List String

/-- The registry at `App::new`: both maps empty. -/
def Registry.empty : Registry := ⟨fun _ => [], fun _ => []⟩

/-- The write-lock-protected registry mutations of `App::setup_discovery`:

* `snapshot d devs` — the discovery loop body (app.rs lines 159-177):
  `entry.clear()` followed by `entry.insert(device_ref.id, …)` for every
  device of the emitted snapshot, i.e. the available set for `d` is
  replaced wholesale by the snapshot — with no check against `in_use`;
* `takeRemoveAvail d id` — the take-waiter removing the taken candidate
  from `available` (lines 204-210);
* `takeInsertInUse d id` — the take-waiter inserting the device into
  `in_use` (lines 219-224);
* `sessionRemoveInUse d id` — the take-waiter removing the device from
  `in_use` after the session ends (lines 257-263). -/
inductive RegEv : Type
  | snapshot (d : String) (devs : List String) : RegEv
  | takeRemoveAvail (d id : String) : RegEv
  | takeInsertInUse (d id : String) : RegEv
  | sessionRemoveInUse (d id : String) : RegEv
  deriving DecidableEq, Repr

/-- Apply one registry mutation. -/
def regStep (r : Registry) : RegEv → Registry
  | .snapshot d devs =>
      { r with available := fun k => if k = d then devs else r.available k }
  | .takeRemoveAvail d id =>
      { r with available := fun k =>
          if k = d then removeDev (r.available k) id else r.available k }
  | .takeInsertInUse d id =>
      { r with in_use := fun k =>
          if k = d then insertDev (r.in_use k) id else r.in_use k }
  | .sessionRemoveInUse d id =>
      { r with in_use := fun k =>
          if k = d then removeDev (r.in_use k) id else r.in_use k }

/-- Apply a sequence of registry mutations. -/
def regRun (r : Registry) (evs : List RegEv) : Registry :=
  evs.foldl regStep r

/-- The at-most-one-ownership invariant claimed by the spec: a device id
present in `available` under some discovery id is not simultaneously
present in `in_use` under that discovery id. -/
def registryInvariant (r : Registry) : Prop :=
  ∀ d id, id ∈ r.available d → id ∉ r.in_use d

theorem mem_removeDev {l : List String} {id x : String} :
    x ∈ removeDev l id ↔ x ∈ l ∧ x ≠ id := by
  simp [removeDev, List.mem_filter, bne_iff_ne]

theorem mem_insertDev {l : List String} {id x : String} :
    x ∈ insertDev l id ↔ x = id ∨ (x ∈ l ∧ x ≠ id) := by
  simp [insertDev, List.mem_filter, bne_iff_ne]

/-- A reachable interleaving: a snapshot lists device `A`, `A` is taken
(removed from available, inserted into in-use, session still running), and
the discovery source emits a fresh snapshot that still lists `A`. -/
def relistTrace : List RegEv :=
  [.snapshot "ws" ["A"],
   .takeRemoveAvail "ws" "A",
   .takeInsertInUse "ws" "A",
   .snapshot "ws" ["A"]]

/-- **C3** (counterexample): the registry state reached after a discovery
snapshot re-lists a device whose session is still recorded in `in_use` has
the device id in *both* maps under the same discovery id, because the
snapshot handler replaces the available set without consulting `in_use` —
the claimed invariant fails in exactly the state the claim singles out. -/
theorem snapshot_relist_violates_invariant :
    "A" ∈ (regRun Registry.empty relistTrace).available "ws" ∧
    "A" ∈ (regRun Registry.empty relistTrace).in_use "ws" ∧
    ¬ registryInvariant (regRun Registry.empty relistTrace) := by
  have h1 : "A" ∈ (regRun Registry.empty relistTrace).available "ws" := by decide
  have h2 : "A" ∈ (regRun Registry.empty relistTrace).in_use "ws" := by decide
  exact ⟨h1, h2, fun hInv => hInv "ws" "A" h1 h2⟩

/-- **C3** (amended): the mutual-exclusion invariant is preserved by every
registry mutation except a snapshot that re-lists an in-use device: a
snapshot listing only devices not currently in use preserves it, removal
from `available` preserves it, insertion into `in_use` preserves it
provided the device is (as after the take-waiter's removal) absent from
`available`, and removal from `in_use` preserves it unconditionally. -/
theorem registryInvariant_preserved_except_relist (r : Registry)
    (hInv : registryInvariant r) :
    (∀ d devs, (∀ id, id ∈ devs → id ∉ r.in_use d) →
      registryInvariant (regStep r (.snapshot d devs))) ∧
    (∀ d id, registryInvariant (regStep r (.takeRemoveAvail d id))) ∧
    (∀ d id, id ∉ r.available d →
      registryInvariant (regStep r (.takeInsertInUse d id))) ∧
    (∀ d id, registryInvariant (regStep r (.sessionRemoveInUse d id))) := by
  refine ⟨?_, ?_, ?_, ?_⟩
  · intro d devs hdevs d' id' hmem
    simp only [regStep] at hmem ⊢
    by_cases hd : d' = d
    · rw [if_pos hd] at hmem
      subst hd
      exact hdevs id' hmem
    · rw [if_neg hd] at hmem
      exact hInv d' id' hmem
  · intro d id d' id' hmem
    simp only [regStep] at hmem ⊢
    by_cases hd : d' = d
    · rw [if_pos hd] at hmem
      exact hInv d' id' (mem_removeDev.mp hmem).1
    · rw [if_neg hd] at hmem
      exact hInv d' id' hmem
  · intro d id hno d' id' hmem
    simp only [regStep] at hmem ⊢
    by_cases hd : d' = d
    · rw [if_pos hd]
      subst hd
      intro hin
      rcases mem_insertDev.mp hin with h | h
      · rw [h] at hmem
        exact hno hmem
      · exact hInv d' id' hmem h.1
    · rw [if_neg hd]
      exact hInv d' id' hmem
  · intro d id d' id' hmem
    simp only [regStep] at hmem ⊢
    by_cases hd : d' = d
    · rw [if_pos hd]
      intro hin
      exact hInv d' id' hmem (mem_removeDev.mp hin).1
    · rw [if_neg hd]
      exact hInv d' id' hmem

/-- Witness for the amended C3 theorem at a concrete registry. -/
theorem registryInvariant_preserved_witness :
    registryInvariant (regStep Registry.empty (.snapshot "ws" ["A"])) ∧
    registryInvariant (regStep Registry.empty (.takeRemoveAvail "ws" "A")) ∧
    registryInvariant (regStep Registry.empty (.takeInsertInUse "ws" "A")) ∧
    registryInvariant (regStep Registry.empty (.sessionRemoveInUse "ws" "A")) := by
  have hEmpty : registryInvariant Registry.empty :=
    fun d id h => absurd h (List.not_mem_nil id)
  have h := registryInvariant_preserved_except_relist Registry.empty hEmpty
  exact ⟨h.1 "ws" ["A"] (fun id _ => List.not_mem_nil id),
         h.2.1 "ws" "A",
         h.2.2.1 "ws" "A" (List.not_mem_nil "A"),
         h.2.2.2 "ws" "A"⟩

/-! ### The take-waiter task (app.rs lines 188-276)

The task spawned for each available candidate runs, once a take signal is
received, a fixed sequence of actions.  `TakeStep` records them in program
order. -/

/-- One action of the take-waiter body. -/
inductive TakeStep : Type
  | regOp (ev : RegEv) : TakeStep
  | notifyListeners : TakeStep
  | connectCall (ok : Bool) : TakeStep
  | runSession : TakeStep
  deriving DecidableEq, Repr

/-- The sequence of actions the take-waiter performs for device `id` of
discovery `d` once `take_rx.recv()` yields a take signal, with `ok` the
result of `device.connect()`: remove from `available` (lines 204-210),
create the cancel handle and insert into `in_use` (lines 212-224), notify
listeners (line 226), call `connect()` (line 233), on success run the
session to completion (lines 234-250), then remove from `in_use`
(lines 257-263) and notify again (line 270). -/
def takeWaiterSteps (d id : String) (ok : Bool) : List TakeStep :=
  [.regOp (.takeRemoveAvail d id),
   .regOp (.takeInsertInUse d id),
   .notifyListeners,
   .connectCall ok]
  ++ (if ok then [.runSession] else [])
  ++ [.regOp (.sessionRemoveInUse d id), .notifyListeners]

/-- Registry mutations performed by a list of take-waiter actions. -/
def regOps (steps : List TakeStep) : List RegEv :=
  steps.filterMap (fun s =>
    match s with
    | .regOp ev => some ev
    | _ => none)

/-- Formalization of claim C4's "only on connect success inserts the device
into the in_use map": every insertion into `in_use` is preceded by a
successful `connect()` call. -/
def insertOnlyAfterConnectSuccess (steps : List TakeStep) (d id : String) : Prop :=
  ∀ i, steps.get? i = some (.regOp (.takeInsertInUse d id)) →
    ∃ j, j < i ∧ steps.get? j = some (.connectCall true)

/-- **C4** (counterexample): in the take-waiter with a *failing* connect,
the insertion into `in_use` is performed at step 1, before `connect()` is
even invoked at step 3 — so the device is inserted into `in_use` although
connect never succeeds, refuting "only on connect success inserts the
device into the in_use map". -/
theorem takeWaiter_inserts_inUse_before_connect :
    (takeWaiterSteps "ws" "A" false).get? 1
        = some (.regOp (.takeInsertInUse "ws" "A")) ∧
    (takeWaiterSteps "ws" "A" false).get? 3 = some (.connectCall false) ∧
    ¬ insertOnlyAfterConnectSuccess (takeWaiterSteps "ws" "A" false) "ws" "A" := by
  refine ⟨rfl, rfl, ?_⟩
  intro hcl
  obtain ⟨j, hj, hget⟩ := hcl 1 rfl
  cases j with
  | zero => exact absurd hget (by decide)
  | succ j' => omega

/-- **C4** (amended): on a take signal the waiter removes the candidate
from `available`, then *unconditionally* inserts the device into `in_use`
(with a fresh cancel handle) and broadcasts, and only then invokes
`connect()`; right after the insertion (before `connect()` returns) the
device *is* present in `in_use`, and after the handler completes —
in particular after a connect failure — the device is present in neither
map entry it touched. -/
theorem takeWaiter_actual_order (d id : String) (ok : Bool) (r : Registry) :
    regOps (takeWaiterSteps d id ok) =
      [.takeRemoveAvail d id, .takeInsertInUse d id, .sessionRemoveInUse d id] ∧
    (takeWaiterSteps d id ok).get? 0 = some (.regOp (.takeRemoveAvail d id)) ∧
    (takeWaiterSteps d id ok).get? 1 = some (.regOp (.takeInsertInUse d id)) ∧
    (takeWaiterSteps d id ok).get? 3 = some (.connectCall ok) ∧
    id ∈ (regRun r (regOps ((takeWaiterSteps d id ok).take 3))).in_use d ∧
    id ∉ (regRun r (regOps (takeWaiterSteps d id ok))).in_use d ∧
    id ∉ (regRun r (regOps (takeWaiterSteps d id ok))).available d := by
  have hOps : regOps (takeWaiterSteps d id ok) =
      [.takeRemoveAvail d id, .takeInsertInUse d id, .sessionRemoveInUse d id] := by
    cases ok <;> rfl
  refine ⟨hOps, rfl, rfl, rfl, ?_, ?_, ?_⟩
  · show id ∈ (regRun r [.takeRemoveAvail d id, .takeInsertInUse d id]).in_use d
    simp [regRun, regStep, insertDev]
  · rw [hOps]
    simp [regRun, regStep, mem_removeDev]
  · rw [hOps]
    simp [regRun, regStep, mem_removeDev]

/-! ## WebSocket transport (`libs/dev-disp-comm/src/websocket/transport.rs`) -/

/-- `TransportError` of `dev-disp-core/src/client/transport.rs` (the
`Other` payload, a boxed error, is dropped). -/
inductive TransportError : Type
  | NoConnection : TransportError
  | Timeout : TransportError
  | Other : TransportError
  | Unknown : TransportError
  | NotImplemented : TransportError
  | SerializationError : TransportError
  deriving DecidableEq, Repr

/-- `WsMessageProtocolInit` of `websocket/messages.rs`. -/
structure WsMessageProtocolInit : Type where
  init_key : String
  deriving DecidableEq, Repr

/-- The fixed init key the source sends (transport.rs line 159). -/
def wsInitKey : String := "yo mamma"

/-- `WsTransport::initialize` (transport.rs lines 156-185).  The source
sends `RequestProtocolInit { init_key: wsInitKey }` and waits on the
`rx_protocol_init` channel.  Inputs model the environment: `sendResult` is
the outcome of `send_msg` (`none` = success), `response` the next message
delivered on the channel (`none` = channel closed, which yields
`NoConnection`).  The received `init_key` must equal the sent one, else
the result is `Err(TransportError::Unknown)`. -/
def wsTransportInit (sendResult : Option TransportError)
    (response : Option WsMessageProtocolInit) : Except TransportError Unit :=
  match sendResult with
  | some e => .error e
  | none =>
      match response with
      | none => .error .NoConnection
      | some resp =>
          if resp.init_key = wsInitKey then .ok () else .error .Unknown

/-- **C7**: `initialize()` on the WebSocket transport succeeds if and only
if the send went through and the protocol-init response received carries an
`init_key` equal to the key the source sent; and for every response whose
`init_key` differs, it fails with the `Unknown` transport error. -/
theorem wsTransportInit_key_echo (sendResult : Option TransportError)
    (response : Option WsMessageProtocolInit) :
    (wsTransportInit sendResult response = .ok () ↔
      sendResult = none ∧ ∃ r, response = some r ∧ r.init_key = wsInitKey) ∧
    (∀ r, response = some r → r.init_key ≠ wsInitKey → sendResult = none →
      wsTransportInit sendResult response = .error .Unknown) := by
  constructor
  · cases sendResult with
    | some e => simp [wsTransportInit]
    | none =>
        cases response with
        | none => simp [wsTransportInit]
        | some r =>
            by_cases hk : r.init_key = wsInitKey <;> simp [wsTransportInit, hk]
  · intro r hr hk hs
    rw [hr, hs]
    simp [wsTransportInit, hk]

/-- Witness for C7: the echoed key succeeds, a different key fails with
`Unknown`. -/
theorem wsTransportInit_key_echo_witness :
    wsTransportInit none (some ⟨"yo mamma"⟩) = .ok () ∧
    wsTransportInit none (some ⟨"nope"⟩) = .error .Unknown := by
  constructor
  · exact (wsTransportInit_key_echo none (some ⟨"yo mamma"⟩)).1.mpr
      ⟨rfl, ⟨"yo mamma"⟩, rfl, rfl⟩
  · exact (wsTransportInit_key_echo none (some ⟨"nope"⟩)).2
      ⟨"nope"⟩ rfl (by decide) rfl

/-- Possible abnormal outcome of the slice expression in
`send_screen_data`: a Rust out-of-bounds slice, i.e. a panic. -/
inductive SliceErr : Type
  | outOfBounds : SliceErr
  deriving DecidableEq, Repr

/-- `WsTransport::send_screen_data` (transport.rs lines 210-224): builds
`PutScreenData(data[0..64 * 1024].as_ref())` and serializes it.  The model
returns the payload placed in the `PutScreenData` message; the slice
expression `data[0..64*1024]` requires `data.len() >= 65536` and panics
otherwise, modelled as `.error .outOfBounds`. -/
def sendScreenDataPayload (data : List UInt8) : Except SliceErr (List UInt8) :=
  if data.length < 64 * 1024 then .error .outOfBounds
  else .ok (data.take (64 * 1024))

/-- **C10**: `send_screen_data` slices `data[0..65536]` unconditionally —
it panics (out-of-bounds slice) whenever the encoded frame has fewer than
65536 bytes, and when it has 65536 bytes or more, exactly the first 65536
bytes form the `PutScreenData` payload while the remaining
`data.drop 65536` bytes of the frame are silently discarded. -/
theorem sendScreenData_slices_unconditionally (data : List UInt8) :
    (data.length < 64 * 1024 → sendScreenDataPayload data = .error .outOfBounds) ∧
    (64 * 1024 ≤ data.length →
      sendScreenDataPayload data = .ok (data.take (64 * 1024)) ∧
      (data.take (64 * 1024)).length = 64 * 1024 ∧
      data.take (64 * 1024) ++ data.drop (64 * 1024) = data) := by
  constructor
  · intro h
    simp [sendScreenDataPayload, h]
  · intro h
    have hn : ¬ data.length < 64 * 1024 := not_lt.mpr h
    refine ⟨by simp [sendScreenDataPayload, hn], ?_, List.take_append_drop _ _⟩
    rw [List.length_take, Nat.min_eq_left h]

/-- Witness for C10: the empty frame panics; a frame of exactly 65536 zero
bytes is accepted and its payload is its 65536-byte initial segment. -/
theorem sendScreenData_slices_witness :
    sendScreenDataPayload [] = .error .outOfBounds ∧
    sendScreenDataPayload (List.replicate (64 * 1024) 0) =
      .ok ((List.replicate (64 * 1024) (0 : UInt8)).take (64 * 1024)) := by
  constructor
  · exact (sendScreenData_slices_unconditionally []).1 (by decide)
  · have hlen : (List.replicate (64 * 1024) (0 : UInt8)).length = 64 * 1024 :=
      List.length_replicate _ _
    exact ((sendScreenData_slices_unconditionally _).2 hlen.ge).1

/-! ## ffmpeg encoder catalogue
(`libs/dev-disp-encoders/src/ffmpeg/configurations.rs`)

`FfmpegEncoderConfigurationSet` is an `Iterator` whose `next`
(configurations.rs lines 136-172) walks all (option-set, pixel-format)
combinations, pixel formats innermost.  `HashMap<String, String>` option
maps are modelled as association lists. -/

/-- The ffmpeg pixel formats used by the encoder catalogue. -/
inductive Pixel : Type
  | YUV420P : Pixel
  | RGBA : Pixel
  | BGRA : Pixel
  | YUV444P : Pixel
  | YUV444P16LE : Pixel
  | NV12 : Pixel
  | P010LE : Pixel
  | P016LE : Pixel
  | YUYV422 : Pixel
  | P012LE : Pixel
  | QSV : Pixel
  | VUYX : Pixel
  | VAAPI : Pixel
  | VULKAN : Pixel
  | XV30LE : Pixel
  | YUV422P : Pixel
  | YUV440P : Pixel
  | YUVA420P : Pixel
  deriving DecidableEq, Repr

/-- `FfmpegEncoderConfigurationSet` (configurations.rs lines 96-113),
including its two iteration indices. -/
structure FfmpegEncoderConfigurationSet : Type where
  encoder_name : String
  encoder_family : String
  encoder_option_sets : List (List (String × String))
  pixel_formats : List Pixel
  encoder_option_set_index : Nat
  pixel_format_index : Nat
  deriving DecidableEq, Repr

/-- `FfmpegEncoderConfigurationSet::new` (configurations.rs lines 116-133):
both indices start at 0. -/
def FfmpegEncoderConfigurationSet.new (n f : String)
    (opts : List (List (String × String))) (pixs : List Pixel) :
    FfmpegEncoderConfigurationSet :=
  ⟨n, f, opts, pixs, 0, 0⟩

/-- `FfmpegEncoderConfiguration` (configurations.rs lines 176-181). -/
structure FfmpegEncoderConfiguration : Type where
  encoder_name : String
  encoder_family : String
  encoder_options : List (String × String)
  pixel_format : Pixel
  deriving DecidableEq, Repr

/-- The `next` of `Iterator for FfmpegEncoderConfigurationSet`
(configurations.rs lines 139-171), transcribed check by check.  The
indexing expression `self.pixel_formats[self.pixel_format_index]` panics
when out of bounds; the panic is modelled as `.error`.  (The second
exhaustion check appears in the source only inside the advance branch; in
the non-advance branch it is false by the first check, so guarding both
paths with it is equivalent.) -/
def setNext (s0 : FfmpegEncoderConfigurationSet) :
    Except String (Option (FfmpegEncoderConfiguration × FfmpegEncoderConfigurationSet)) :=
  if s0.encoder_option_sets.length ≤ s0.encoder_option_set_index then .ok none
  else
    let s :=
      if s0.pixel_formats.length ≤ s0.pixel_format_index then
        { s0 with pixel_format_index := 0,
                  encoder_option_set_index := s0.encoder_option_set_index + 1 }
      else s0
    if s.encoder_option_sets.length ≤ s.encoder_option_set_index then .ok none
    else
      let options :=
        if s.encoder_option_sets.isEmpty then []
        else (s.encoder_option_sets.get? s.encoder_option_set_index).getD []
      match s.pixel_formats.get? s.pixel_format_index with
      | none => .error "pixel_formats index out of bounds"
      | some pf =>
          .ok (some
            (⟨s.encoder_name, s.encoder_family, options, pf⟩,
             { s with pixel_format_index := s.pixel_format_index + 1 }))

/-- Drain the iterator into the list of configurations it yields, with
`fuel` bounding the number of `next` calls: `none` = out of fuel, `some
(.error _)` = a `next` call panicked, `some (.ok cs)` = the iterator
finished after yielding `cs`. -/
def setRun : Nat → FfmpegEncoderConfigurationSet →
    Option (Except String (List FfmpegEncoderConfiguration))
  | 0, _ => none
  | fuel + 1, s =>
      match setNext s with
      | .error e => some (.error e)
      | .ok none => some (.ok [])
      | .ok (some (c, s')) =>
          match setRun fuel s' with
          | none => none
          | some (.error e) => some (.error e)
          | some (.ok cs) => some (.ok (c :: cs))

/-- Shorthand for one concrete configuration. -/
def cfg (n f : String) (o : List (String × String)) (p : Pixel) :
    FfmpegEncoderConfiguration :=
  ⟨n, f, o, p⟩

/-- The flat brute-force expansion the spec describes: for each option-set
in order, every pixel format in order (pixel formats are the inner loop). -/
def setExpansion (n f : String) (opts : List (List (String × String)))
    (pixs : List Pixel) : List FfmpegEncoderConfiguration :=
  match opts with
  | [] => []
  | o :: rest => pixs.map (cfg n f o) ++ setExpansion n f rest pixs

/-- The part of the expansion still to be yielded from iterator position
`(i, j)`. -/
def setExpansionFrom (n f : String) (opts : List (List (String × String)))
    (pixs : List Pixel) (i j : Nat) : List FfmpegEncoderConfiguration :=
  match opts.get? i with
  | none => []
  | some o => (pixs.drop j).map (cfg n f o) ++ setExpansion n f (opts.drop (i + 1)) pixs

theorem setExpansionFrom_zero (n f : String)
    (opts : List (List (String × String))) (pixs : List Pixel) :
    setExpansionFrom n f opts pixs 0 0 = setExpansion n f opts pixs := by
  cases opts with
  | nil => rfl
  | cons o rest => simp [setExpansionFrom, setExpansion]

theorem setNext_done {opts : List (List (String × String))} {i : Nat}
    (n f : String) (pixs : List Pixel) (j : Nat) (hi : opts.length ≤ i) :
    setNext ⟨n, f, opts, pixs, i, j⟩ = .ok none := by
  simp [setNext, hi]

theorem setNext_yield {opts : List (List (String × String))} {pixs : List Pixel}
    {i j : Nat} (n f : String) (hi : i < opts.length) (hj : j < pixs.length) :
    setNext ⟨n, f, opts, pixs, i, j⟩ =
      .ok (some (⟨n, f, opts.get ⟨i, hi⟩, pixs.get ⟨j, hj⟩⟩,
        ⟨n, f, opts, pixs, i, j + 1⟩)) := by
  have h1 : ¬ opts.length ≤ i := not_le.mpr hi
  have h2 : ¬ pixs.length ≤ j := not_le.mpr hj
  have h3 : opts.isEmpty = false := by
    cases opts with
    | nil => exact absurd hi (by simp)
    | cons _ _ => rfl
  have h4 : pixs[j]? = some (pixs.get ⟨j, hj⟩) := by
    simp [List.getElem?_eq_getElem hj]
  have h5 : opts[i]? = some (opts.get ⟨i, hi⟩) := by
    simp [List.getElem?_eq_getElem hi]
  simp [setNext, h1, h2, h3, h4, h5]

theorem setNext_advance_done {opts : List (List (String × String))}
    {pixs : List Pixel} {i j : Nat} (n f : String) (hi : i < opts.length)
    (hj : pixs.length ≤ j) (hi2 : opts.length ≤ i + 1) :
    setNext ⟨n, f, opts, pixs, i, j⟩ = .ok none := by
  have h1 : ¬ opts.length ≤ i := not_le.mpr hi
  simp [setNext, h1, hj, hi2]

theorem setNext_advance_yield {opts : List (List (String × String))}
    {pixs : List Pixel} {i j : Nat} (n f : String) (hi : i < opts.length)
    (hj : pixs.length ≤ j) (hi2 : i + 1 < opts.length) (hp : 0 < pixs.length) :
    setNext ⟨n, f, opts, pixs, i, j⟩ =
      .ok (some (⟨n, f, opts.get ⟨i + 1, hi2⟩, pixs.get ⟨0, hp⟩⟩,
        ⟨n, f, opts, pixs, i + 1, 1⟩)) := by
  have h1 : ¬ opts.length ≤ i := not_le.mpr hi
  have h2 : ¬ opts.length ≤ i + 1 := not_le.mpr hi2
  have h3 : opts.isEmpty = false := by
    cases opts with
    | nil => exact absurd hi (by simp)
    | cons _ _ => rfl
  have h4 : pixs[0]? = some (pixs.get ⟨0, hp⟩) := by
    simp [List.getElem?_eq_getElem hp]
  have h5 : opts[i + 1]? = some (opts.get ⟨i + 1, hi2⟩) := by
    simp [List.getElem?_eq_getElem hi2]
  simp [setNext, h1, h2, h3, h4, h5, hj]

theorem setNext_advance_error {opts : List (List (String × String))}
    {i : Nat} (n f : String) (j : Nat) (hi : i < opts.length)
    (hi2 : i + 1 < opts.length) :
    setNext ⟨n, f, opts, [], i, j⟩ = .error "pixel_formats index out of bounds" := by
  have h1 : ¬ opts.length ≤ i := not_le.mpr hi
  have h2 : ¬ opts.length ≤ i + 1 := not_le.mpr hi2
  simp [setNext, h1, h2]

theorem setExpansionFrom_none {opts : List (List (String × String))} {i : Nat}
    (hi : opts.length ≤ i) (n f : String) (pixs : List Pixel) (j : Nat) :
    setExpansionFrom n f opts pixs i j = [] := by
  unfold setExpansionFrom
  rw [List.get?_eq_none.mpr hi]

theorem setExpansionFrom_eq {opts : List (List (String × String))} {i : Nat}
    (hi : i < opts.length) (n f : String) (pixs : List Pixel) (j : Nat) :
    setExpansionFrom n f opts pixs i j =
      (pixs.drop j).map (cfg n f (opts.get ⟨i, hi⟩)) ++
        setExpansion n f (opts.drop (i + 1)) pixs := by
  unfold setExpansionFrom
  rw [List.get?_eq_get hi]

/-- From any in-range iterator position, draining the iterator yields
exactly the remaining part of the expansion, provided the pixel-format list
is non-empty. -/
theorem setRun_from (n f : String) (opts : List (List (String × String)))
    (pixs : List Pixel) (hM : pixs ≠ []) :
    ∀ fuel i j, j ≤ pixs.length →
      (setExpansionFrom n f opts pixs i j).length + 1 ≤ fuel →
      setRun fuel ⟨n, f, opts, pixs, i, j⟩ =
        some (.ok (setExpansionFrom n f opts pixs i j)) := by
  obtain ⟨p0, prest, rfl⟩ := List.exists_cons_of_ne_nil hM
  have hp : 0 < (p0 :: prest).length := Nat.succ_pos _
  intro fuel
  induction fuel with
  | zero => intro i j _ hf; omega
  | succ fuel ih =>
      intro i j hj hf
      by_cases hi : opts.length ≤ i
      · rw [setExpansionFrom_none hi]
        simp [setRun, setNext_done n f (p0 :: prest) j hi]
      · push_neg at hi
        by_cases hjlt : j < (p0 :: prest).length
        · -- yield (opts[i], pixs[j]) and advance the pixel index
          have hdj : (p0 :: prest).drop j =
              (p0 :: prest).get ⟨j, hjlt⟩ :: (p0 :: prest).drop (j + 1) := by
            simp [List.drop_eq_getElem_cons hjlt]
          have hcons : setExpansionFrom n f opts (p0 :: prest) i j =
              cfg n f (opts.get ⟨i, hi⟩) ((p0 :: prest).get ⟨j, hjlt⟩) ::
                setExpansionFrom n f opts (p0 :: prest) i (j + 1) := by
            rw [setExpansionFrom_eq hi n f (p0 :: prest) j,
              setExpansionFrom_eq hi n f (p0 :: prest) (j + 1), hdj,
              List.map_cons, List.cons_append]
          have hfu :
              (setExpansionFrom n f opts (p0 :: prest) i (j + 1)).length + 1 ≤ fuel := by
            rw [hcons] at hf
            rw [List.length_cons] at hf
            omega
          have hrec := ih i (j + 1) hjlt hfu
          rw [hcons]
          simp only [setRun, setNext_yield n f hi hjlt, hrec, cfg]
        · -- pixel formats exhausted: advance to the next option set
          have hjge : (p0 :: prest).length ≤ j := not_lt.mp hjlt
          have hjeq : j = (p0 :: prest).length := le_antisymm hj hjge
          have hdropj : (p0 :: prest).drop j = [] := by
            rw [hjeq]
            exact List.drop_length _
          by_cases hi2 : opts.length ≤ i + 1
          · have hdrop : opts.drop (i + 1) = [] := List.drop_eq_nil_of_le hi2
            have hexp : setExpansionFrom n f opts (p0 :: prest) i j = [] := by
              rw [setExpansionFrom_eq hi n f (p0 :: prest) j, hdropj, hdrop]
              simp [setExpansion]
            rw [hexp]
            simp [setRun, setNext_advance_done n f hi hjge hi2]
          · push_neg at hi2
            have hdrop1 : opts.drop (i + 1) =
                opts.get ⟨i + 1, hi2⟩ :: opts.drop (i + 2) := by
              simpa using List.drop_eq_getElem_cons hi2
            have hcons : setExpansionFrom n f opts (p0 :: prest) i j =
                cfg n f (opts.get ⟨i + 1, hi2⟩) p0 ::
                  setExpansionFrom n f opts (p0 :: prest) (i + 1) 1 := by
              rw [setExpansionFrom_eq hi n f (p0 :: prest) j, hdropj,
                setExpansionFrom_eq hi2 n f (p0 :: prest) 1, hdrop1]
              simp [setExpansion, cfg]
            have hfu :
                (setExpansionFrom n f opts (p0 :: prest) (i + 1) 1).length + 1 ≤ fuel := by
              rw [hcons] at hf
              rw [List.length_cons] at hf
              omega
            have hrec := ih (i + 1) 1 hp hfu
            rw [hcons]
            simp only [setRun, setNext_advance_yield n f hi hjge hi2 hp, hrec, cfg]
            rfl

theorem setExpansion_length (n f : String) (opts : List (List (String × String)))
    (pixs : List Pixel) :
    (setExpansion n f opts pixs).length = opts.length * pixs.length := by
  induction opts with
  | nil => simp [setExpansion]
  | cons o rest ih =>
      simp only [setExpansion, List.length_append, List.length_map, ih,
        List.length_cons, Nat.succ_mul]
      omega

theorem setExpansion_options_mem {n f : String}
    {opts : List (List (String × String))} {pixs : List Pixel}
    {c : FfmpegEncoderConfiguration}
    (hc : c ∈ setExpansion n f opts pixs) : c.encoder_options ∈ opts := by
  induction opts with
  | nil => simp [setExpansion] at hc
  | cons o rest ih =>
      simp only [setExpansion, List.mem_append] at hc
      rcases hc with hc | hc
      · obtain ⟨p, _, rfl⟩ := List.mem_map.mp hc
        simp [cfg]
      · exact List.mem_cons_of_mem _ (ih hc)

theorem setExpansion_nodup (n f : String) {opts : List (List (String × String))}
    {pixs : List Pixel} (ho : opts.Nodup) (hp : pixs.Nodup) :
    (setExpansion n f opts pixs).Nodup := by
  induction opts with
  | nil => simp [setExpansion]
  | cons o rest ih =>
      obtain ⟨ho1, ho2⟩ := List.nodup_cons.mp ho
      have hinj : Function.Injective (cfg n f o) := by
        intro p q hpq
        simpa [cfg] using hpq
      simp only [setExpansion]
      rw [List.nodup_append]
      refine ⟨hp.map hinj, ih ho2, ?_⟩
      intro c hc1 hc2
      obtain ⟨p, _, rfl⟩ := List.mem_map.mp hc1
      have hopt := setExpansion_options_mem hc2
      simp only [cfg] at hopt
      exact ho1 hopt

/-- **C6** (amended): for an entry with N option-sets and M ≥ 1 pixel
formats, draining the iterator from a fresh state yields exactly the
brute-force expansion — for each option-set in catalogue order, every
pixel format in order (pixel formats are the inner loop: all M formats of
option-set #1 precede anything of option-set #2 by the very shape of
`setExpansion`) — hence exactly N×M configurations, and the yielded list
has no duplicates whenever the option-set and pixel-format lists are
themselves duplicate-free.  (With M = 0 and N ≥ 2 the iterator instead
panics; see the counterexample theorem.) -/
theorem setIterator_yields_catalogue_expansion (n f : String)
    (opts : List (List (String × String))) (pixs : List Pixel) (hM : pixs ≠ []) :
    setRun ((setExpansion n f opts pixs).length + 1)
        (FfmpegEncoderConfigurationSet.new n f opts pixs) =
      some (.ok (setExpansion n f opts pixs)) ∧
    (setExpansion n f opts pixs).length = opts.length * pixs.length ∧
    (opts.Nodup → pixs.Nodup → (setExpansion n f opts pixs).Nodup) := by
  refine ⟨?_, setExpansion_length n f opts pixs,
    fun ho hp => setExpansion_nodup n f ho hp⟩
  have hfe : setExpansionFrom n f opts pixs 0 0 = setExpansion n f opts pixs :=
    setExpansionFrom_zero n f opts pixs
  have h := setRun_from n f opts pixs hM ((setExpansion n f opts pixs).length + 1)
    0 0 (Nat.zero_le _) (by simp [hfe])
  rw [hfe] at h
  exact h

/-- Witness for the amended C6 theorem on a concrete two-option-set,
two-pixel-format entry: 2 × 2 = 4 configurations, no duplicates. -/
theorem setIterator_yields_expansion_witness :
    setRun 5 (FfmpegEncoderConfigurationSet.new "libx264" "h264"
        [[("preset", "ultrafast")], []] [.YUV420P, .RGBA]) =
      some (.ok (setExpansion "libx264" "h264" [[("preset", "ultrafast")], []]
        [.YUV420P, .RGBA])) ∧
    (setExpansion "libx264" "h264" [[("preset", "ultrafast")], []]
        [.YUV420P, .RGBA]).length = 2 * 2 ∧
    (setExpansion "libx264" "h264" [[("preset", "ultrafast")], []]
        [.YUV420P, .RGBA]).Nodup := by
  have h := setIterator_yields_catalogue_expansion "libx264" "h264"
    [[("preset", "ultrafast")], []] [.YUV420P, .RGBA] (by decide)
  have hlen : (setExpansion "libx264" "h264" [[("preset", "ultrafast")], []]
      [.YUV420P, .RGBA]).length + 1 = 5 := by decide
  exact ⟨hlen ▸ h.1, h.2.1, h.2.2 (by decide) (by decide)⟩

/-- **C6** (counterexample): an entry with N = 2 option-sets and M = 0
pixel formats does not yield 0 = 2 × 0 configurations and finish — its
first `next()` call evaluates `pixel_formats[0]` on an empty list, a panic. -/
theorem setIterator_zero_formats_out_of_bounds :
    setRun 5 (FfmpegEncoderConfigurationSet.new "libx264" "h264" [[], []] []) =
      some (.error "pixel_formats index out of bounds") ∧
    ¬ ∃ cs, setRun 5 (FfmpegEncoderConfigurationSet.new "libx264" "h264" [[], []] [])
        = some (.ok cs) := by
  have h1 : setRun 5 (FfmpegEncoderConfigurationSet.new "libx264" "h264" [[], []] []) =
      some (.error "pixel_formats index out of bounds") := rfl
  refine ⟨h1, ?_⟩
  rintro ⟨cs, h⟩
  rw [h1] at h
  exact Except.noConfusion (Option.some.inj h)

/-! ## The brute-force iterator over the catalogue
(`Iterator for FfmpegEncoderBruteForceIterator`, configurations.rs lines
221-241)

The source keeps the whole `Vec<FfmpegEncoderConfigurationSet>` plus a
`current_index` that only ever grows and whose prefix is never revisited;
we model the iterator state as the suffix of the configuration sets from
`current_index` on (the current set first). -/

/-- One `next()` of the brute-force iterator: exhausted when no sets
remain; otherwise delegate to the current set's `next`, keeping its
updated state in place, and move to the following set when the current one
is exhausted. -/
def bruteNext : List FfmpegEncoderConfigurationSet →
    Except String (Option (FfmpegEncoderConfiguration × List FfmpegEncoderConfigurationSet))
  | [] => .ok none
  | cs :: rest =>
      match setNext cs with
      | .error e => .error e
      | .ok (some (c, cs')) => .ok (some (c, cs' :: rest))
      | .ok none => bruteNext rest

/-- Drain the brute-force iterator, with `fuel` bounding the number of
`next` calls (`none` = out of fuel). -/
def bruteRun : Nat → List FfmpegEncoderConfigurationSet →
    Option (Except String (List FfmpegEncoderConfiguration))
  | 0, _ => none
  | fuel + 1, b =>
      match bruteNext b with
      | .error e => some (.error e)
      | .ok none => some (.ok [])
      | .ok (some (c, b')) =>
          match bruteRun fuel b' with
          | none => none
          | some (.error e) => some (.error e)
          | some (.ok cs) => some (.ok (c :: cs))

/-- The static encoder catalogue of `get_encoders()` (configurations.rs
lines 268-492), in source order.  `HashMap` option maps are written as
association lists in their `StringMapBuilder` insertion order. -/
def getEncodersSets : List FfmpegEncoderConfigurationSet :=
  [FfmpegEncoderConfigurationSet.new "hevc" "hvc1"
      [[("preset", "ultrafast"), ("tune", "zerolatency")]]
      [.YUV420P],
   FfmpegEncoderConfigurationSet.new "hevc_nvenc" "hvc1"
      [[("preset", "llhq"), ("tune", "ull"), ("delay", "0"), ("rc", "vbr_hq"),
        ("rc-lookahead", "0"), ("tier", "high"), ("multipass", "0"),
        ("cq", "20"), ("spatial-aq", "0"), ("temporal-aq", "0"),
        ("zerolatency", "1")]]
      [.RGBA, .BGRA, .YUV420P, .YUV444P, .YUV444P16LE, .NV12, .P010LE, .P016LE],
   FfmpegEncoderConfigurationSet.new "hevc_qsv" "hvc1"
      [[("preset", "veryfast"), ("scenario", "displayremoting")]]
      [.RGBA, .BGRA, .YUYV422, .NV12, .P010LE, .P012LE, .QSV, .VUYX],
   FfmpegEncoderConfigurationSet.new "hevc_vaapi" "hvc1" [] [.VAAPI],
   FfmpegEncoderConfigurationSet.new "hevc_vulkan" "hvc1"
      [[("usage", "stream"), ("tune", "ull"), ("content", "desktop")]]
      [.VULKAN],
   FfmpegEncoderConfigurationSet.new "libx265" "hvc1"
      [[("preset", "ultrafast"), ("tune", "zerolatency")]]
      [.YUV420P],
   FfmpegEncoderConfigurationSet.new "h265" "hvc1" [[]] [.YUV420P],
   FfmpegEncoderConfigurationSet.new "x265" "hvc1" [[]] [.YUV420P],
   FfmpegEncoderConfigurationSet.new "h264" "h264" [[]] [.YUV420P],
   FfmpegEncoderConfigurationSet.new "h264_vulkan" "h264"
      [[("tuning", "ll"), ("usage", "stream"), ("content", "desktop")]]
      [.VULKAN],
   FfmpegEncoderConfigurationSet.new "libx264" "h264" [[]] [.YUV420P],
   FfmpegEncoderConfigurationSet.new "libx264" "h264" [[]] [.YUV420P],
   FfmpegEncoderConfigurationSet.new "vp9_qsv" "vp09" [[]]
      [.NV12, .P010LE, .VUYX, .QSV, .XV30LE],
   FfmpegEncoderConfigurationSet.new "vp9_vaapi" "vp09" [[]] [.VAAPI],
   FfmpegEncoderConfigurationSet.new "libvpx-vp9" "vp09"
      [[("deadline", "realtime"), ("quality", "realtime"), ("speed", "8"),
        ("tile-columns", "3"), ("frame-parallel", "1"), ("threads", "8"),
        ("static-thresh", "0"), ("max-intra-rate", "300"),
        ("lag-in-frames", "0"), ("qmin", "4"), ("qmax", "50"),
        ("row-mt", "1"), ("error-resilient", "1")]]
      [.YUV420P, .YUV422P, .YUV440P, .YUV444P, .YUVA420P],
   FfmpegEncoderConfigurationSet.new "libvpx" "vp8"
      [[("deadline", "realtime"), ("quality", "realtime"),
        ("vp8flags", "altref"), ("lag-in-frames", "0"), ("cpu-used", "5")]]
      [.YUV420P, .YUVA420P],
   FfmpegEncoderConfigurationSet.new "libaom-av1" "av1"
      [[("cpu-used", "8"), ("threads", "8"), ("tile-columns", "3"),
        ("row-mt", "1"), ("end-usage", "cbr"), ("lag-in-frames", "0")]]
      [.YUV420P]]

/-- The full catalogue expansion: the concatenation of each entry's
brute-force expansion, in catalogue order. -/
def catalogueExpansion (sets : List FfmpegEncoderConfigurationSet) :
    List FfmpegEncoderConfiguration :=
  match sets with
  | [] => []
  | s :: rest =>
      setExpansion s.encoder_name s.encoder_family s.encoder_option_sets
        s.pixel_formats ++ catalogueExpansion rest

/-- `EncoderPossibleConfiguration` as consumed by `FfmpegEncoder::init`'s
preference filter (ffmpeg_encoder.rs lines 207-212), which reads only
`encoder_name` and `encoder_family`; the remaining fields (resolution,
codec parameters) are not consulted and are omitted. -/
structure EncoderPossibleConfiguration : Type where
  encoder_name : String
  encoder_family : String
  deriving DecidableEq, Repr

/-- The preference predicate of `init`
(`prefs.iter().any(|preferred| preferred.encoder_name == config.encoder_name
&& preferred.encoder_family == config.encoder_family)`). -/
def prefMatch (ps : List EncoderPossibleConfiguration)
    (c : FfmpegEncoderConfiguration) : Bool :=
  ps.any (fun p => p.encoder_name == c.encoder_name &&
    p.encoder_family == c.encoder_family)

/-- The ordered sequence of configurations attempted by
`FfmpegEncoder::init` (ffmpeg_encoder.rs lines 191-264): with
`preferred_encoders = None` the full static catalogue `get_encoders()` is
drained; with `Some(prefs)` the brute-force iterator over the *configured*
catalogue (`self.configuration.encoder_configurations`) is filtered to
configurations whose (encoder_name, encoder_family) matches some
preference.  Each element of the resulting list is passed to `try_init`
in order. -/
def initAttempts (cfgCatalog : List FfmpegEncoderConfigurationSet)
    (prefs : Option (List EncoderPossibleConfiguration)) (fuel : Nat) :
    Option (Except String (List FfmpegEncoderConfiguration)) :=
  match prefs with
  | none => bruteRun fuel getEncodersSets
  | some ps =>
      (bruteRun fuel cfgCatalog).map (fun r => r.map (List.filter (prefMatch ps)))

/-- **C5** (amended): with a *supplied* preference list `ps` (possibly
empty), the configurations attempted by `init` are exactly the brute-force
expansion of the configured catalogue filtered by the (name, family)
preference predicate — every attempted configuration's pair is present in
`ps` and catalogue order is preserved (the attempted sequence is a sublist
of the full expansion); with an *absent* preference list the attempted
sequence equals the full static catalogue expansion.  An empty-but-present
list therefore attempts nothing, contrary to the claim's "empty or absent"
wording (see the counterexample theorem). -/
theorem init_attempts_characterization
    (cfgCatalog : List FfmpegEncoderConfigurationSet)
    (ps : List EncoderPossibleConfiguration) (fuel : Nat)
    (full : List FfmpegEncoderConfiguration)
    (hfull : bruteRun fuel cfgCatalog = some (.ok full)) :
    initAttempts cfgCatalog (some ps) fuel =
      some (.ok (full.filter (prefMatch ps))) ∧
    (∀ c, c ∈ full.filter (prefMatch ps) →
      ∃ p, p ∈ ps ∧ p.encoder_name = c.encoder_name ∧
        p.encoder_family = c.encoder_family) ∧
    List.Sublist (full.filter (prefMatch ps)) full ∧
    initAttempts cfgCatalog none 100 =
      some (.ok (catalogueExpansion getEncodersSets)) := by
  refine ⟨?_, ?_, List.filter_sublist full, rfl⟩
  · simp [initAttempts, hfull, Except.map]
  · intro c hc
    have hmatch := (List.mem_filter.mp hc).2
    simpa [prefMatch, List.any_eq_true, Bool.and_eq_true, beq_iff_eq] using hmatch

/-- Witness for the amended C5 theorem on a one-entry catalogue and a
matching one-entry preference list. -/
theorem init_attempts_characterization_witness :
    initAttempts [FfmpegEncoderConfigurationSet.new "libx264" "h264" [[]] [.YUV420P]]
        (some [⟨"libx264", "h264"⟩]) 2 =
      some (.ok ([cfg "libx264" "h264" [] .YUV420P].filter
        (prefMatch [⟨"libx264", "h264"⟩]))) :=
  (init_attempts_characterization
    [FfmpegEncoderConfigurationSet.new "libx264" "h264" [[]] [.YUV420P]]
    [⟨"libx264", "h264"⟩] 2 [cfg "libx264" "h264" [] .YUV420P] rfl).1

/-- **C5** (counterexample): with the default configured catalogue (equal
to the static one, `FfmpegConfiguration::default`), a present-but-empty
preference list makes `init` attempt *no* configuration at all, whereas
the claim says an empty preference list attempts the full catalogue
expansion — which is non-empty. -/
theorem init_empty_preference_list_attempts_nothing :
    initAttempts getEncodersSets (some []) 100 = some (.ok []) ∧
    initAttempts getEncodersSets none 100 =
      some (.ok (catalogueExpansion getEncodersSets)) ∧
    catalogueExpansion getEncodersSets ≠ [] := by
  refine ⟨rfl, rfl, ?_⟩
  decide

/-! ## ffmpeg `encode` input-size check
(`FfmpegEncoder::encode`, ffmpeg_encoder.rs lines 271-378) -/

/-- `VirtualScreenPixelFormat` (dev-disp-core host/encoder.rs). -/
inductive VirtualScreenPixelFormat : Type
  | Rgb888 : VirtualScreenPixelFormat
  | Bgr888 : VirtualScreenPixelFormat
  | Rgba8888 : VirtualScreenPixelFormat
  | Bgra8888 : VirtualScreenPixelFormat
  | Argb8888 : VirtualScreenPixelFormat
  | Abgr8888 : VirtualScreenPixelFormat
  deriving DecidableEq, Repr

/-- `ScreenOutputParameters` (dev-disp-core host/encoder.rs); the optional
`meta_data` map is not consulted by `encode` and is omitted. -/
structure ScreenOutputParameters : Type where
  format : VirtualScreenPixelFormat
  width : Nat
  height : Nat
  stride : Nat
  deriving DecidableEq, Repr

/-- Modelled from the spec: `EncoderContentParameters` of the dev-disp-core
version the encoder crate builds against is not under src/ (only the spec's
`{width, height, bitrate, fps, input_parameters}` description and the
field accesses in ffmpeg_encoder.rs, which names the last field
`encoder_input_parameters`, are available). -/
structure EncoderContentParameters : Type where
  width : Nat
  height : Nat
  bitrate : Nat
  fps : Nat
  encoder_input_parameters : ScreenOutputParameters
  deriving DecidableEq, Repr

/-- The distinct error cases of `FfmpegEncoder::encode`, one per `format!`
call site:
* `notInitialized` — "Encoder not initialized" (line 279);
* `inputTooSmall expected got` — "Input buffer too small. Expected {}, got {}"
  (lines 300-306);
* `scaleFailed` — "Failed to scale frame: …" (line 330);
* `sendFrameFailed` — "Failed to send frame to encoder: …" (line 347). -/
inductive FfmpegEncodeError : Type
  | notInitialized : FfmpegEncodeError
  | inputTooSmall (expected got : Nat) : FfmpegEncodeError
  | scaleFailed : FfmpegEncodeError
  | sendFrameFailed : FfmpegEncodeError
  deriving DecidableEq, Repr

/-- The fields of `FfmpegEncoderState` that `encode`'s control flow reads:
the content parameters fixed at `init` and whether a scaler was selected. -/
structure FfmpegEncoderStateModel : Type where
  given_params : EncoderContentParameters
  hasScaler : Bool
  deriving DecidableEq, Repr

/-- Behaviour of the ffmpeg backend during one `encode` call: the result
of `scaler.run`, of `encoder.send_frame`, and the data of the packets
drained by `receive_packet`. -/
structure EncodeEnv : Type where
  scaleOk : Bool
  sendFrameOk : Bool
  packets : List (List Nat)
  deriving DecidableEq, Repr

/-- `FfmpegEncoder::encode` (ffmpeg_encoder.rs lines 271-378), up to the
output buffer: fails if the encoder is uninitialized; computes
`expected = src_stride * height` from the declared input parameters and
fails *before any backend interaction* when the input buffer is shorter;
otherwise copies the rows, runs the scaler when present, submits the frame
via `send_frame` and drains the packets into the reused output buffer.
The first component records whether a frame was submitted to the backend
(`send_frame` reached). -/
def ffmpegEncode (state? : Option FfmpegEncoderStateModel) (rawLen : Nat)
    (env : EncodeEnv) : Bool × Except FfmpegEncodeError (List Nat) :=
  match state? with
  | none => (false, .error .notInitialized)
  | some st =>
      let height := st.given_params.encoder_input_parameters.height
      let srcStride := st.given_params.encoder_input_parameters.stride
      let expected := srcStride * height
      if rawLen < expected then
        (false, .error (.inputTooSmall expected rawLen))
      else if st.hasScaler && !env.scaleOk then
        (false, .error .scaleFailed)
      else if !env.sendFrameOk then
        (true, .error .sendFrameFailed)
      else
        (true, .ok env.packets.flatten)

/-- **C8**: for an initialized encoder, `encode` returns the
input-too-small error — without submitting a frame to the backend —
whenever the input buffer is shorter than `stride × height` of the
declared input parameters; and whenever the buffer has at least
`stride × height` bytes the size check passes: no outcome is the
input-too-small error. -/
theorem encode_checks_input_size (st : FfmpegEncoderStateModel)
    (rawLen : Nat) (env : EncodeEnv) :
    (rawLen < st.given_params.encoder_input_parameters.stride *
        st.given_params.encoder_input_parameters.height →
      ffmpegEncode (some st) rawLen env =
        (false, .error (.inputTooSmall
          (st.given_params.encoder_input_parameters.stride *
            st.given_params.encoder_input_parameters.height) rawLen))) ∧
    (st.given_params.encoder_input_parameters.stride *
        st.given_params.encoder_input_parameters.height ≤ rawLen →
      ∀ e g, (ffmpegEncode (some st) rawLen env).2 ≠
        .error (.inputTooSmall e g)) := by
  constructor
  · intro h
    simp [ffmpegEncode, h]
  · intro h e g
    have hn : ¬ rawLen < st.given_params.encoder_input_parameters.stride *
        st.given_params.encoder_input_parameters.height := not_lt.mpr h
    simp only [ffmpegEncode, if_neg hn]
    split_ifs <;> simp

/-- Witness for C8: with stride 4 and height 2 (expected 8 bytes), a
7-byte buffer is rejected without submission and an 8-byte buffer passes
the size check. -/
theorem encode_checks_input_size_witness :
    ffmpegEncode
        (some ⟨⟨1, 2, 1000000, 60, ⟨.Bgra8888, 1, 2, 4⟩⟩, false⟩) 7
        ⟨true, true, []⟩ =
      (false, .error (.inputTooSmall 8 7)) ∧
    (ffmpegEncode
        (some ⟨⟨1, 2, 1000000, 60, ⟨.Bgra8888, 1, 2, 4⟩⟩, false⟩) 8
        ⟨true, true, []⟩).2 ≠ .error (.inputTooSmall 8 8) := by
  constructor
  · exact (encode_checks_input_size ⟨⟨1, 2, 1000000, 60, ⟨.Bgra8888, 1, 2, 4⟩⟩, false⟩
      7 ⟨true, true, []⟩).1 (by decide)
  · exact (encode_checks_input_size ⟨⟨1, 2, 1000000, 60, ⟨.Bgra8888, 1, 2, 4⟩⟩, false⟩
      8 ⟨true, true, []⟩).2 (by decide) 8 8

end DevDisp
